import Mathlib

/-!
Shallow embedding of the SEMRush CTR-calculation repository.

Two source files are modelled:
* `ctr_processor.py` (namespace `CtrProcessor`): the CLI pipeline with the
  fixed indicator dictionary.
* `streamlit_app.py` (namespace `StreamlitApp`): the AI-augmented variant with
  a JSON-backed, self-learning company dictionary.

Python floats of the numeric pipeline are embedded as rationals (`ℚ`);
spreadsheet cells that `pd.to_numeric(errors:coerce)` turns into NaN are
embedded as `none : Option ℚ` and are skipped by the sum, exactly as the
pandas `sum` (with its default `skipna`) does.  Python `None` (as a possible
company value) is embedded as `none : Option String`.
-/

/-- Python's substring test `needle in hay` on strings: `needle.data` is an
infix of `hay.data`. -/
def isSub (needle hay : String) : Bool := decide (needle.data <:+: hay.data)

/-- Python `str.lower()` (character-wise lowercasing; the inputs of interest
are ASCII). -/
def pyLower (s : String) : String := ⟨s.data.map Char.toLower⟩

/-- Python `str.strip()`: drop leading and trailing whitespace. -/
def pyStrip (s : String) : String :=
  ⟨((s.data.dropWhile Char.isWhitespace).reverse.dropWhile Char.isWhitespace).reverse⟩

namespace CtrProcessor

/-- The fixed `company_indicators` dict literal of `identify_company`
(`ctr_processor.py`, lines 15-23), in Python-dict insertion order. -/
def company_indicators : List (String × List String) :=
  [("Bank of America", ["bank of america", "bofa", "b of a"]),
   ("Wells Fargo", ["wells fargo", "wellsfargo"]),
   ("Citibank", ["citibank", "citi"]),
   ("Chase", ["chase", "jp morgan chase", "jpmorgan"]),
   ("Capital One", ["capital one"]),
   ("American Express", ["american express", "amex"])]

/-- One step of `company_counts[company] += 1`: increment the (unique) entry
with the given key.  The Python dict is keyed; keys here are pairwise
distinct, so updating the first match is the dict update. -/
def bump1 : List (String × Nat) → String → List (String × Nat)
  | [], _ => []
  | p :: ps, c => if p.1 = c then (p.1, p.2 + 1) :: ps else p :: bump1 ps c

/-- Increment the entry with key `c` by `n` (generalisation of `bump1` used
in proofs). -/
def bumpN : List (String × Nat) → String → Nat → List (String × Nat)
  | [], _, _ => []
  | p :: ps, c, n => if p.1 = c then (p.1, p.2 + n) :: ps else p :: bumpN ps c n

/-- The innermost loop of `identify_company`: `for indicator in indicators:
if indicator in keyword: company_counts[company] += 1`. -/
def innerFold (kw c : String) (inds : List String) (acc : List (String × Nat)) :
    List (String × Nat) :=
  inds.foldl (fun a ind => if isSub ind kw then bump1 a c else a) acc

/-- The middle loop: `for company, indicators in company_indicators.items()`,
over an arbitrary dictionary `cl`. -/
def genStep (cl : List (String × List String)) (acc : List (String × Nat))
    (kw : String) : List (String × Nat) :=
  cl.foldl (fun a p => innerFold kw p.1 p.2 a) acc

/-- Python `max(company_counts.values())` (all counts are `Nat`, and the dict
is never empty, so folding `max` from `0` agrees with Python's `max`). -/
def maxVals (l : List (String × Nat)) : Nat := l.foldl (fun m p => Nat.max m p.2) 0

/-- The fold performed by Python's `max(company_counts, key=company_counts.get)`:
keep the first entry whose count is strictly larger than the running best. -/
def pickMax (p : String × Nat) (ps : List (String × Nat)) : String × Nat :=
  ps.foldl (fun b q => if b.2 < q.2 then q else b) p

/-- Python `max(company_counts, key=company_counts.get)`: the first key (in
dict iteration order) attaining the maximal count.  The empty case is
unreachable (the dict has six entries; Python's `max` would raise there). -/
def firstMaxKey : List (String × Nat) → String
  | [] => ""
  | p :: ps => (pickMax p ps).1

/-- `identify_company` of `ctr_processor.py` (lines 7-37), loop for loop:
lowercase the non-null keywords, then run the triple nested counting loop,
then select.  `none` cells model NaN entries removed by `pd.notna`. -/
def identify_company (keywords_list : List (Option String)) : String :=
  let keywords_lower := (keywords_list.filterMap id).map pyLower
  let company_counts :=
    keywords_lower.foldl (genStep company_indicators)
      (company_indicators.map (fun p => (p.1, 0)))
  if 0 < maxVals company_counts then firstMaxKey company_counts
  else "Unknown Company"

/-- Number of (keyword, indicator) pairs such that the indicator is a
substring of the keyword — what the nested loops of `identify_company`
actually accumulate per company. -/
def pairCount (kws inds : List String) : Nat :=
  (kws.map (fun kw => inds.countP (fun ind => isSub ind kw))).sum

/-- The per-company pair counts of a keyword list, in dict order. -/
def pairCounts (keywords_list : List (Option String)) : List (String × Nat) :=
  company_indicators.map
    (fun p => (p.1, pairCount ((keywords_list.filterMap id).map pyLower) p.2))

/-- What claim C1 says `identify_company` computes, following the spec's words:
per company, the number of KEYWORDS containing at least one of that company's
indicator phrases (each keyword counted at most once per company), with the
same selection rule. -/
def identify_company_spec (keywords_list : List (Option String)) : String :=
  let keywords_lower := (keywords_list.filterMap id).map pyLower
  let company_counts := company_indicators.map
    (fun p => (p.1, (keywords_lower.filter
        (fun kw => p.2.any (fun ind => isSub ind kw))).length))
  if 0 < maxVals company_counts then firstMaxKey company_counts
  else "Unknown Company"

end CtrProcessor

/-- Sum of a spreadsheet column after `pd.to_numeric(..., errors:coerce)`:
unparseable cells became NaN (`none`) and the pandas `sum` skips them; an
empty or all-NaN column sums to `0`. -/
def sumCells (cs : List (Option ℚ)) : ℚ := (cs.filterMap id).sum

/-- One per-file spreadsheet, as consumed by the aggregators: the keyword
column (index 0), the search-volume column (D, index 3) and the traffic
column (H, index 7), each already coerced as the source does. -/
structure FileData where
  keywords : List (Option String)
  svCells : List (Option ℚ)
  trCells : List (Option ℚ)
deriving DecidableEq

/-- One file of a batch: either its primary table parses and yields the three
columns, or reading/extracting raises (unreadable file, missing columns) —
everything inside the per-file `try` of both `process_excel_files` variants. -/
inductive FileInput where
  | ok (name : String) (data : FileData)
  | bad (name : String)
deriving DecidableEq

/-- Names of the bad files of a batch, in batch order. -/
def badNames (fs : List FileInput) : List String :=
  fs.filterMap fun f => match f with | .bad n => some n | .ok _ _ => none

/-- Python-dict accumulation of per-company totals
(`company_aggregates[company][...] += ...`, creating the entry on first
occurrence): update the unique entry with this key, else append. -/
def updAgg {κ : Type} [DecidableEq κ] :
    List (κ × ℚ × ℚ) → κ → ℚ → ℚ → List (κ × ℚ × ℚ)
  | [], c, v, t => [(c, v, t)]
  | p :: ps, c, v, t =>
    if p.1 = c then (p.1, p.2.1 + v, p.2.2 + t) :: ps else p :: updAgg ps c v t

/-- Total search volume held in an aggregate map. -/
def aggSV {κ : Type} (l : List (κ × ℚ × ℚ)) : ℚ := (l.map (fun p => p.2.1)).sum

/-- Total traffic held in an aggregate map. -/
def aggTR {κ : Type} (l : List (κ × ℚ × ℚ)) : ℚ := (l.map (fun p => p.2.2)).sum

/-- Stable insertion step of Python's `sorted(...)` on association pairs:
insert after every element whose key is `le`-before the new key. -/
def insByKey {κ : Type} (le : κ → κ → Bool) (x : κ × ℚ × ℚ) :
    List (κ × ℚ × ℚ) → List (κ × ℚ × ℚ)
  | [] => [x]
  | y :: ys => if le y.1 x.1 then y :: insByKey le x ys else x :: y :: ys

/-- Python's `sorted(company_aggregates.items())`: ascending by key (keys are
pairwise distinct dict keys, so only the key part of the tuple comparison is
ever consulted). -/
def sortByKey {κ : Type} (le : κ → κ → Bool) (l : List (κ × ℚ × ℚ)) :
    List (κ × ℚ × ℚ) :=
  l.foldl (fun acc x => insByKey le x acc) []

/-- Boolean string comparison used by Python's `sorted` on string keys. -/
def strLE (a b : String) : Bool := decide (a ≤ b)

namespace CtrProcessor

/-- One row of Sheet 2 ("Monthly Summary"): the per-file record appended to
`monthly_data` (`ctr_processor.py`, lines 76-81). -/
structure MonthlyRow where
  fileName : String
  company : String
  monthlySV : ℚ
  monthlyTR : ℚ
deriving DecidableEq

/-- One row of Sheet 1 ("Company Summary"), lines 108-113. -/
structure SummaryRow where
  company : String
  totalSV : ℚ
  totalTR : ℚ
  ctr : ℚ
deriving DecidableEq

/-- Loop state of the file loop: `monthly_data`, `company_aggregates`, and
the per-file errors reported by the `except` branch. -/
structure CState where
  rows : List MonthlyRow
  aggs : List (String × ℚ × ℚ)
  errs : List String
deriving DecidableEq

/-- The body of `for file_path in sorted(excel_files)` (lines 55-99): a bad
file only reports its error and `continue`s; a good file appends its monthly
record and accumulates into its company's aggregate. -/
def processFile (st : CState) (f : FileInput) : CState :=
  match f with
  | .bad n => { st with errs := st.errs ++ [n] }
  | .ok n d =>
    let company := identify_company d.keywords
    let msv := sumCells d.svCells
    let mtr := sumCells d.trCells
    { rows := st.rows ++ [⟨n, company, msv, mtr⟩],
      aggs := updAgg st.aggs company msv mtr,
      errs := st.errs }

/-- One company-summary row: `ctr = total_traffic / total_search_volume if
total_search_volume > 0 else 0` (line 106). -/
def mkSummaryRow (p : String × ℚ × ℚ) : SummaryRow :=
  ⟨p.1, p.2.1, p.2.2, if 0 < p.2.1 then p.2.2 / p.2.1 else 0⟩

/-- The value returned by `process_excel_files` (lines 115-118), with the
reported per-file errors collected alongside. -/
structure CResults where
  company_summary : List SummaryRow
  monthly_data : List MonthlyRow
  errors : List String
deriving DecidableEq

/-- `process_excel_files` of `ctr_processor.py` (lines 39-118).  The
directory glob and the name sort of the batch happen before the loop; the
model receives the batch in that order.  An empty batch returns `None`
(line 48). -/
def process_excel_files (files : List FileInput) : Option CResults :=
  if files = [] then none
  else
    let st := files.foldl processFile ⟨[], [], []⟩
    some ⟨(sortByKey strLE st.aggs).map mkSummaryRow, st.rows, st.errs⟩

/-- The monthly record a good file contributes. -/
def rowOf (n : String) (d : FileData) : MonthlyRow :=
  ⟨n, identify_company d.keywords, sumCells d.svCells, sumCells d.trCells⟩

/-- Monthly records of the good files of a batch, in batch order. -/
def okRows (fs : List FileInput) : List MonthlyRow :=
  fs.filterMap fun f => match f with | .ok n d => some (rowOf n d) | .bad _ => none

/-- The aggregate-map action of one file. -/
def aggStep (a : List (String × ℚ × ℚ)) (f : FileInput) : List (String × ℚ × ℚ) :=
  match f with
  | .ok _ d => updAgg a (identify_company d.keywords) (sumCells d.svCells) (sumCells d.trCells)
  | .bad _ => a

end CtrProcessor

namespace StreamlitApp

/-- The company dictionary of `streamlit_app.py`: company name → indicator
phrases, in insertion order, as persisted in `company_config.json`. -/
abbrev Config := List (String × List String)

/-- The built-in default dictionary (`load_company_config`, lines 24-31). -/
def defaultCompanies : Config :=
  [("Bank of America", ["bank of america", "bofa", "b of a"]),
   ("Wells Fargo", ["wells fargo", "wellsfargo"]),
   ("Citibank", ["citibank", "citi"]),
   ("Chase", ["chase", "jp morgan chase", "jpmorgan"]),
   ("Capital One", ["capital one"]),
   ("American Express", ["american express", "amex"])]

/-- State of the persistent `company_config.json` as `load_company_config`
can encounter it: missing file, present-but-unparseable file (the `json.load`
call raises), or parsed JSON with or without a `companies` key. -/
inductive Storage where
  | absent
  | unreadable
  | content (companies : Option Config)
deriving DecidableEq

/-- `load_company_config` (lines 14-31).  Only `FileNotFoundError` is caught
(missing file → built-in defaults, after a warning).  For a present but
unparseable file `json.load` raises `json.JSONDecodeError`, which is not a
`FileNotFoundError`, so the exception propagates (`Except.error`).  A parsed
file without a `companies` key yields the empty dict
(`config.get` with the `companies` key defaulting to the empty dict). -/
def load_company_config : Storage → Except Unit Config
  | .absent => .ok defaultCompanies
  | .unreadable => .error ()
  | .content none => .ok []
  | .content (some c) => .ok c

/-- Python `name in company_indicators` on the string-keyed dict. -/
def containsKey (cfg : Config) (n : String) : Bool :=
  cfg.any fun p => decide (p.1 = n)

/-- Distinct elements in first-occurrence order (the key order of a Python
`Counter`/dict built by insertion). -/
def dedupFirstAux : List String → List String → List String
  | [], _ => []
  | x :: xs, seen =>
    if x ∈ seen then dedupFirstAux xs seen else x :: dedupFirstAux xs (x :: seen)

/-- `Counter(l)` as an association list: distinct elements in first-occurrence
order with their multiplicities. -/
def counterItems (l : List String) : List (String × Nat) :=
  (dedupFirstAux l []).map fun s => (s, l.count s)

/-- Stable descending insertion: the new element goes after every element
with count at least its own, which reproduces the stability of
`Counter.most_common` (CPython sorts stably, so ties keep insertion order). -/
def insDesc (x : String × Nat) : List (String × Nat) → List (String × Nat)
  | [] => [x]
  | y :: ys => if x.2 ≤ y.2 then y :: insDesc x ys else x :: y :: ys

/-- Counts sorted descending, stably. -/
def sortDesc (l : List (String × Nat)) : List (String × Nat) :=
  l.foldl (fun acc x => insDesc x acc) []

/-- `Counter(l).most_common(k)`. -/
def mostCommon (k : Nat) (l : List String) : List (String × Nat) :=
  (sortDesc (counterItems l)).take k

/-- `extract_company_name_from_keywords` (lines 33-49): strip the non-null
keywords, keep the ones whose first character is uppercase, and return the
most frequent one (first-encountered on ties); `None` when no candidate
exists. -/
def extract_company_name_from_keywords (keywords_list : List (Option String)) :
    Option String :=
  let keywords_str := (keywords_list.filterMap id).map pyStrip
  let potential_companies := keywords_str.filter fun kw =>
    match kw.data with
    | [] => false
    | c :: _ => c.isUpper
  match potential_companies with
  | [] => none
  | p :: ps => ((mostCommon 1 (p :: ps)).head?).map Prod.fst

/-- The dict key actually persisted for a learned company name.  The name can
be Python `None` (a failed classification flows into `auto_learn_company`
unchecked); `json.dump` serialises a `None` key as the string `"null"`, and
`save_company_config` clears the `st.cache_resource` cache, so the state the
next `load_company_config` observes has string keys only. -/
def keyOf : Option String → String
  | some n => n
  | none => "null"

/-- `auto_learn_company` (lines 51-70): no-op (`False`) if the name is already
a key; otherwise take the 10 most common lowercased-stripped keywords, keep
the non-empty ones longer than 2 characters, and if any remain, insert the
entry and persist (`True`).  Persistence (`save_company_config`) is modelled
by returning the updated dictionary state. -/
def auto_learn_company (company_name : Option String)
    (keywords_list : List (Option String)) (cfg : Config) : Bool × Config :=
  let keywords_lower := (keywords_list.filterMap id).map fun s => pyStrip (pyLower s)
  let isMember := match company_name with
    | some n => containsKey cfg n
    | none => false
  if isMember then (false, cfg)
  else
    let learned_keywords := ((mostCommon 10 keywords_lower).filter
      (fun p => decide (p.1 ≠ "") && decide (2 < p.1.length))).map Prod.fst
    if learned_keywords = [] then (false, cfg)
    else (true, cfg ++ [(keyOf company_name, learned_keywords)])

/-- Outcome of the one remote Groq chat-completion request issued per file:
either the raised exception (transport failure, timeout, bad credential, the
offline case) or the returned message content. -/
abbrev AIOutcome := Except Unit String

/-- The prompt material: up to 20 stripped non-null keywords, comma-joined
(line 86). -/
def keywordsStr (keywords_list : List (Option String)) : String :=
  String.intercalate ", " (((keywords_list.filterMap id).map pyStrip).take 20)

/-- `identify_company_with_ai` (lines 81-121): empty keyword material →
sentinel; missing credential → fallback extractor; raised remote call →
fallback extractor; otherwise the stripped response, with empty or sentinel
responses normalised to the sentinel.  Note the fallback extractor may return
`None`, which is passed through. -/
def identify_company_with_ai (keywords_list : List (Option String))
    (api_key : String) (ai : AIOutcome) : Option String :=
  if pyStrip (keywordsStr keywords_list) = "" then some "Unknown Company"
  else if api_key = "" then extract_company_name_from_keywords keywords_list
  else
    match ai with
    | .error _ => extract_company_name_from_keywords keywords_list
    | .ok content =>
      let company_name := pyStrip content
      if company_name ≠ "" ∧ company_name ≠ "Unknown Company" then some company_name
      else some "Unknown Company"

/-- `identify_company` of `streamlit_app.py` (lines 123-138): AI-based
identification first; any result other than the sentinel — including Python
`None` — is checked against the current dictionary, auto-learned when absent,
and returned as-is together with the dictionary state after the optional
learn. -/
def identify_company (keywords_list : List (Option String)) (api_key : String)
    (ai : AIOutcome) (cfg : Config) : Option String × Config :=
  let company_name := identify_company_with_ai keywords_list api_key ai
  if company_name ≠ some "Unknown Company" then
    let isKnown := match company_name with
      | some n => containsKey cfg n
      | none => false
    if isKnown then (company_name, cfg)
    else (company_name, (auto_learn_company company_name keywords_list cfg).2)
  else (some "Unknown Company", cfg)

/-- Python `int()` applied to a float: truncation toward zero. -/
def truncQ (q : ℚ) : Int := if 0 ≤ q then ⌊q⌋ else -⌊-q⌋

/-- `int(x) if pd.notna(x) else 0` (lines 189-190): a NaN sum would be stored
as `0`; with the default skipna column sum the NaN case cannot arise, but the
guard is in the source. -/
def storeInt : Option ℚ → Int
  | none => 0
  | some q => truncQ q

/-- One `monthly_data` record (lines 186-191): the stored figures are the
`int()`-truncated column sums. -/
structure SMonthlyRow where
  fileName : String
  company : Option String
  monthlySV : Int
  monthlyTR : Int
deriving DecidableEq

/-- One company-summary row (lines 219-224): totals truncated by `int()`, CTR
computed from the untruncated totals. -/
structure SSummaryRow where
  company : Option String
  totalSV : Int
  totalTR : Int
  ctr : ℚ
deriving DecidableEq

/-- Loop state of the upload loop: monthly records, aggregates (untruncated),
the newly-detected list, reported errors, and the dictionary state. -/
structure SState where
  rows : List SMonthlyRow
  aggs : List (Option String × ℚ × ℚ)
  newly : List (Option String)
  errs : List String
  cfg : Config
deriving DecidableEq

/-- Body of the upload loop (lines 159-207): a bad file reports its error and
`continue`s; a good file resolves its company (possibly learning), re-loads
the config for the newly-detected check, stores the truncated monthly record
and accumulates the untruncated sums. -/
def s_processFile (api_key : String) (ai : List (Option String) → AIOutcome)
    (st : SState) (f : FileInput) : SState :=
  match f with
  | .bad n => { st with errs := st.errs ++ [n] }
  | .ok n d =>
    let r := identify_company d.keywords api_key (ai d.keywords) st.cfg
    let company := r.1
    let cfg' := r.2
    let isKnownNow := match company with
      | some c => containsKey cfg' c
      | none => false
    let newly' :=
      if isKnownNow = false ∧ company ≠ some "Unknown Company" ∧ company ∉ st.newly
      then st.newly ++ [company] else st.newly
    let msv := sumCells d.svCells
    let mtr := sumCells d.trCells
    { rows := st.rows ++ [⟨n, company, storeInt (some msv), storeInt (some mtr)⟩],
      aggs := updAgg st.aggs company msv mtr,
      newly := newly',
      errs := st.errs,
      cfg := cfg' }

/-- The action of one file on the error-free part of the loop state
(records, aggregates, newly-detected list, dictionary), used to factor the
loop: the reported errors influence nothing else. -/
def s_core_step (api_key : String) (ai : List (Option String) → AIOutcome)
    (q : List SMonthlyRow × List (Option String × ℚ × ℚ) × List (Option String) × Config)
    (f : FileInput) :
    List SMonthlyRow × List (Option String × ℚ × ℚ) × List (Option String) × Config :=
  match f with
  | .bad _ => q
  | .ok n d =>
    let r := identify_company d.keywords api_key (ai d.keywords) q.2.2.2
    let company := r.1
    let cfg' := r.2
    let isKnownNow := match company with
      | some c => containsKey cfg' c
      | none => false
    let newly' :=
      if isKnownNow = false ∧ company ≠ some "Unknown Company" ∧ company ∉ q.2.2.1
      then q.2.2.1 ++ [company] else q.2.2.1
    let msv := sumCells d.svCells
    let mtr := sumCells d.trCells
    (q.1 ++ [⟨n, company, storeInt (some msv), storeInt (some mtr)⟩],
     updAgg q.2.1 company msv mtr, newly', cfg')

/-- Key order of `sorted(company_aggregates.items())`.  Python compares the
string keys code-point-wise; comparing `None` with a string would raise
`TypeError` — the model totalises the order (`None` first), and no theorem
below evaluates a batch that mixes a `None` company with named ones. -/
def optLE : Option String → Option String → Bool
  | none, _ => true
  | some _, none => false
  | some a, some b => strLE a b

/-- One company-summary row from an aggregate entry (lines 214-224). -/
def mkSSummaryRow (p : Option String × ℚ × ℚ) : SSummaryRow :=
  ⟨p.1, truncQ p.2.1, truncQ p.2.2, if 0 < p.2.1 then p.2.2 / p.2.1 else 0⟩

/-- The value returned by the streamlit `process_excel_files` (lines
226-230), with the final dictionary state and the reported errors carried
alongside. -/
structure SResults where
  company_summary : List SSummaryRow
  monthly_data : List SMonthlyRow
  newly_detected : List (Option String)
  finalConfig : Config
  errors : List String
deriving DecidableEq

/-- `process_excel_files` of `streamlit_app.py` (lines 140-230): `None` on an
empty upload list (line 145) or a missing API key (lines 148-150); otherwise
the upload loop followed by the sorted company summary. -/
def process_excel_files (files : List FileInput) (api_key : String)
    (ai : List (Option String) → AIOutcome) (cfg₀ : Config) : Option SResults :=
  if files = [] then none
  else if api_key = "" then none
  else
    let st := files.foldl (s_processFile api_key ai) ⟨[], [], [], [], cfg₀⟩
    some ⟨(sortByKey optLE st.aggs).map mkSSummaryRow, st.rows, st.newly, st.cfg, st.errs⟩

end StreamlitApp

namespace CtrProcessor

lemma bumpN_zero (l : List (String × Nat)) (c : String) : bumpN l c 0 = l := by
  induction l with
  | nil => rfl
  | cons p ps ih =>
    obtain ⟨a, b⟩ := p
    by_cases h : a = c <;> simp [bumpN, h, ih]

lemma bump1_eq_bumpN (l : List (String × Nat)) (c : String) : bump1 l c = bumpN l c 1 := by
  induction l with
  | nil => rfl
  | cons p ps ih =>
    by_cases h : p.1 = c <;> simp [bump1, bumpN, h, ih]

lemma bumpN_bumpN (l : List (String × Nat)) (c : String) (m n : Nat) :
    bumpN (bumpN l c m) c n = bumpN l c (m + n) := by
  induction l with
  | nil => rfl
  | cons p ps ih =>
    by_cases h : p.1 = c
    · simp [bumpN, h, Nat.add_assoc]
    · simp [bumpN, h, ih]

lemma bumpN_append (l₁ l₂ : List (String × Nat)) (c : String) (n : Nat)
    (h : ∀ r ∈ l₁, r.1 ≠ c) : bumpN (l₁ ++ l₂) c n = l₁ ++ bumpN l₂ c n := by
  induction l₁ with
  | nil => rfl
  | cons p ps ih =>
    have hp : p.1 ≠ c := h p (by simp)
    have ih' := ih (fun r hr => h r (List.mem_cons_of_mem _ hr))
    simp [bumpN, hp, ih']

/-- The innermost indicator loop increments the company's count by the number
of indicators occurring in the keyword. -/
lemma innerFold_eq (inds : List String) (kw c : String) (acc : List (String × Nat)) :
    innerFold kw c inds acc = bumpN acc c (inds.countP (fun ind => isSub ind kw)) := by
  induction inds generalizing acc with
  | nil => simp [innerFold, List.countP_nil, bumpN_zero]
  | cons i is ih =>
    by_cases h : isSub i kw
    · simp only [innerFold, List.foldl_cons, if_pos h] at *
      rw [ih, bump1_eq_bumpN, bumpN_bumpN, List.countP_cons, if_pos h, Nat.add_comm 1]
    · simp only [innerFold, List.foldl_cons, if_neg h] at *
      rw [ih, List.countP_cons, if_neg h]
      simp

/-- One keyword step of the counting loop, over a dictionary with pairwise
distinct company names: every company's count grows by the number of its
indicators contained in the keyword. -/
lemma genStep_map (cl : List (String × List String)) (kw : String)
    (f : String × List String → Nat) :
    ∀ pre : List (String × Nat), (cl.map Prod.fst).Nodup →
    (∀ q ∈ cl, ∀ r ∈ pre, r.1 ≠ q.1) →
    genStep cl (pre ++ cl.map (fun p => (p.1, f p))) kw =
      pre ++ cl.map (fun p => (p.1, f p + p.2.countP (fun ind => isSub ind kw))) := by
  induction cl with
  | nil => intro pre _ _; simp [genStep]
  | cons q cl' ih =>
    intro pre hnd hdisj
    have hq : ∀ r ∈ pre, r.1 ≠ q.1 := hdisj q (by simp)
    have step1 : innerFold kw q.1 q.2 (pre ++ (q :: cl').map (fun p => (p.1, f p))) =
        (pre ++ [(q.1, f q + q.2.countP (fun ind => isSub ind kw))]) ++
          cl'.map (fun p => (p.1, f p)) := by
      rw [innerFold_eq]
      simp only [List.map_cons]
      rw [bumpN_append _ _ _ _ hq]
      simp [bumpN]
    have hnd' : (cl'.map Prod.fst).Nodup := by
      simp only [List.map_cons, List.nodup_cons] at hnd; exact hnd.2
    have hqnot : q.1 ∉ cl'.map Prod.fst := by
      simp only [List.map_cons, List.nodup_cons] at hnd; exact hnd.1
    have hdisj' : ∀ p ∈ cl',
        ∀ r ∈ pre ++ [(q.1, f q + q.2.countP (fun ind => isSub ind kw))], r.1 ≠ p.1 := by
      intro p hp r hr
      rcases List.mem_append.1 hr with h | h
      · exact hdisj p (by simp [hp]) r h
      · simp only [List.mem_singleton] at h
        subst h
        intro hcon
        exact hqnot (hcon ▸ List.mem_map_of_mem Prod.fst hp)
    have := ih (pre ++ [(q.1, f q + q.2.countP (fun ind => isSub ind kw))]) hnd' hdisj'
    calc genStep (q :: cl') (pre ++ (q :: cl').map (fun p => (p.1, f p))) kw
        = genStep cl' (innerFold kw q.1 q.2 (pre ++ (q :: cl').map (fun p => (p.1, f p)))) kw := rfl
      _ = genStep cl' ((pre ++ [(q.1, f q + q.2.countP (fun ind => isSub ind kw))]) ++
            cl'.map (fun p => (p.1, f p))) kw := by rw [step1]
      _ = (pre ++ [(q.1, f q + q.2.countP (fun ind => isSub ind kw))]) ++
            cl'.map (fun p => (p.1, f p + p.2.countP (fun ind => isSub ind kw))) := this
      _ = pre ++ (q :: cl').map (fun p => (p.1, f p + p.2.countP (fun ind => isSub ind kw))) := by
            simp

lemma company_keys_nodup : (company_indicators.map Prod.fst).Nodup := by decide

/-- The full counting loop of `identify_company` computes, per company, the
number of (keyword, indicator) pairs with the indicator a substring of the
keyword. -/
lemma counts_fold (kws : List String) (f : String × List String → Nat) :
    kws.foldl (genStep company_indicators) (company_indicators.map (fun p => (p.1, f p))) =
      company_indicators.map (fun p => (p.1, f p + pairCount kws p.2)) := by
  induction kws generalizing f with
  | nil =>
    simp [pairCount]
  | cons kw kws ih =>
    rw [List.foldl_cons]
    have h0 := genStep_map company_indicators kw f [] company_keys_nodup (by simp)
    simp only [List.nil_append] at h0
    rw [h0, ih]
    apply List.map_congr_left
    intro p _
    simp [pairCount, Nat.add_assoc]

/-- The counting loop, started from the all-zero dict, lands on `pairCounts`. -/
lemma counts_eq_pairCounts (kws : List (Option String)) :
    ((kws.filterMap id).map pyLower).foldl (genStep company_indicators)
        (company_indicators.map (fun p => (p.1, 0))) = pairCounts kws := by
  have h := counts_fold ((kws.filterMap id).map pyLower) (fun _ => 0)
  simpa [pairCounts] using h

lemma maxVals_aux (l : List (String × Nat)) (a : Nat) (h : ∀ q ∈ l, q.2 = 0) :
    l.foldl (fun m p => Nat.max m p.2) a = a := by
  induction l generalizing a with
  | nil => rfl
  | cons p ps ih =>
    have hp : p.2 = 0 := h p (by simp)
    simp only [List.foldl_cons, hp, Nat.max_zero]
    exact ih a (fun q hq => h q (by simp [hq]))

lemma maxVals_zero (l : List (String × Nat)) (h : ∀ q ∈ l, q.2 = 0) : maxVals l = 0 :=
  maxVals_aux l 0 h

/-- Decomposition of Python's `max(..., key=...)` fold: the selected element
is the first one attaining the maximum — everything before it is strictly
smaller, everything after it is no larger. -/
lemma pickMax_decomp : ∀ (ps : List (String × Nat)) (p : String × Nat),
    ∃ l₁ l₂, p :: ps = l₁ ++ pickMax p ps :: l₂ ∧
      (∀ q ∈ l₁, q.2 < (pickMax p ps).2) ∧ (∀ q ∈ l₂, q.2 ≤ (pickMax p ps).2) := by
  intro ps
  induction ps with
  | nil =>
    intro p
    exact ⟨[], [], by simp [pickMax], by simp, by simp⟩
  | cons q ps ih =>
    intro p
    have hstep : pickMax p (q :: ps) = pickMax (if p.2 < q.2 then q else p) ps := rfl
    by_cases h : p.2 < q.2
    · rw [hstep, if_pos h]
      obtain ⟨l₁, l₂, heq, hlt, hle⟩ := ih q
      have hqle : q.2 ≤ (pickMax q ps).2 := by
        cases l₁ with
        | nil =>
          simp only [List.nil_append] at heq
          injection heq with h1 _
          exact le_of_eq (congrArg Prod.snd h1)
        | cons a t =>
          simp only [List.cons_append] at heq
          injection heq with h1 _
          exact le_of_lt (h1 ▸ hlt a (by simp))
      refine ⟨p :: l₁, l₂, by simp [heq], ?_, hle⟩
      intro r hr
      rcases List.mem_cons.1 hr with h1 | h1
      · subst h1; exact lt_of_lt_of_le h hqle
      · exact hlt r h1
    · rw [hstep, if_neg h]
      obtain ⟨l₁, l₂, heq, hlt, hle⟩ := ih p
      cases l₁ with
      | nil =>
        simp only [List.nil_append] at heq
        injection heq with hp hps
        refine ⟨[], q :: l₂, ?_, by simp, ?_⟩
        · rw [List.nil_append, ← hp, ← hps]
        · intro r hr
          rcases List.mem_cons.1 hr with h1 | h1
          · subst h1
            rw [← hp]
            exact Nat.le_of_not_lt h
          · exact hle r h1
      | cons a t =>
        simp only [List.cons_append] at heq
        injection heq with hp hps
        have hplt : p.2 < (pickMax p ps).2 := hp ▸ hlt a (by simp)
        have hgoal : p :: q :: ps = (p :: q :: t) ++ pickMax p ps :: l₂ := by
          conv_lhs => rw [hps]
          simp
        refine ⟨p :: q :: t, l₂, hgoal, ?_, hle⟩
        intro r hr
        rcases List.mem_cons.1 hr with h1 | h1
        · subst h1; exact hplt
        rcases List.mem_cons.1 h1 with h2 | h2
        · subst h2; exact lt_of_le_of_lt (Nat.le_of_not_lt h) hplt
        · exact hlt r (by simp [h2])

/-- The first-max decomposition for `firstMaxKey` on a nonempty count list. -/
lemma firstMaxKey_decomp (l : List (String × Nat)) (hne : l ≠ []) :
    ∃ l₁ n l₂, l = l₁ ++ (firstMaxKey l, n) :: l₂ ∧
      (∀ q ∈ l₁, q.2 < n) ∧ (∀ q ∈ l₂, q.2 ≤ n) := by
  cases l with
  | nil => exact absurd rfl hne
  | cons p ps =>
    obtain ⟨l₁, l₂, heq, hlt, hle⟩ := pickMax_decomp ps p
    exact ⟨l₁, (pickMax p ps).2, l₂, by simpa [firstMaxKey] using heq, hlt, hle⟩

end CtrProcessor

lemma aggSV_updAgg {κ : Type} [DecidableEq κ] (l : List (κ × ℚ × ℚ)) (c : κ) (v t : ℚ) :
    aggSV (updAgg l c v t) = aggSV l + v := by
  induction l with
  | nil => simp [updAgg, aggSV]
  | cons p ps ih =>
    by_cases h : p.1 = c
    · simp [updAgg, h, aggSV, add_comm, add_assoc, add_left_comm]
    · simp only [updAgg, if_neg h, aggSV, List.map_cons, List.sum_cons] at *
      rw [ih]; ring

lemma aggTR_updAgg {κ : Type} [DecidableEq κ] (l : List (κ × ℚ × ℚ)) (c : κ) (v t : ℚ) :
    aggTR (updAgg l c v t) = aggTR l + t := by
  induction l with
  | nil => simp [updAgg, aggTR]
  | cons p ps ih =>
    by_cases h : p.1 = c
    · simp [updAgg, h, aggTR, add_comm, add_assoc, add_left_comm]
    · simp only [updAgg, if_neg h, aggTR, List.map_cons, List.sum_cons] at *
      rw [ih]; ring

lemma map_sum_insByKey {κ : Type} (le : κ → κ → Bool) (f : κ × ℚ × ℚ → ℚ)
    (x : κ × ℚ × ℚ) (l : List (κ × ℚ × ℚ)) :
    ((insByKey le x l).map f).sum = f x + (l.map f).sum := by
  induction l with
  | nil => simp [insByKey]
  | cons y ys ih =>
    by_cases h : le y.1 x.1
    · simp only [insByKey, if_pos h, List.map_cons, List.sum_cons, ih]; ring
    · simp [insByKey, if_neg h]

lemma map_sum_sortByKey_aux {κ : Type} (le : κ → κ → Bool) (f : κ × ℚ × ℚ → ℚ)
    (l acc : List (κ × ℚ × ℚ)) :
    ((l.foldl (fun a x => insByKey le x a) acc).map f).sum =
      (acc.map f).sum + (l.map f).sum := by
  induction l generalizing acc with
  | nil => simp
  | cons y ys ih =>
    simp only [List.foldl_cons, List.map_cons, List.sum_cons]
    rw [ih, map_sum_insByKey]; ring

lemma map_sum_sortByKey {κ : Type} (le : κ → κ → Bool) (f : κ × ℚ × ℚ → ℚ)
    (l : List (κ × ℚ × ℚ)) : ((sortByKey le l).map f).sum = (l.map f).sum := by
  have h := map_sum_sortByKey_aux le f l []
  simpa [sortByKey] using h

namespace CtrProcessor

/-- The file loop splits into three independent components: records of good
files, aggregate accumulation over good files, error names of bad files. -/
lemma fold_decomp (fs : List FileInput) : ∀ st : CState,
    fs.foldl processFile st =
      ⟨st.rows ++ okRows fs, fs.foldl aggStep st.aggs, st.errs ++ badNames fs⟩ := by
  induction fs with
  | nil =>
    intro st
    cases st
    simp [okRows, badNames]
  | cons f fs ih =>
    intro st
    cases f with
    | ok n d =>
      simp only [List.foldl_cons, processFile, ih, okRows, badNames, aggStep,
        List.filterMap_cons]
      simp [rowOf, okRows, badNames]
    | bad n =>
      simp only [List.foldl_cons, processFile, ih, okRows, badNames, aggStep,
        List.filterMap_cons]
      simp [okRows, badNames]

/-- Aggregate totals over a batch: exactly the sums of the good files'
monthly figures (traffic). -/
lemma aggTR_fold (fs : List FileInput) : ∀ a : List (String × ℚ × ℚ),
    aggTR (fs.foldl aggStep a) = aggTR a + ((okRows fs).map (fun r => r.monthlyTR)).sum := by
  induction fs with
  | nil => intro a; simp [okRows]
  | cons f fs ih =>
    intro a
    cases f with
    | ok n d =>
      simp only [List.foldl_cons, aggStep, okRows, List.filterMap_cons]
      rw [ih, aggTR_updAgg]
      simp [okRows, rowOf]
      ring
    | bad n =>
      simp only [List.foldl_cons, aggStep, okRows, List.filterMap_cons]
      rw [ih]
      simp [okRows]

/-- Aggregate totals over a batch: exactly the sums of the good files'
monthly figures (search volume). -/
lemma aggSV_fold (fs : List FileInput) : ∀ a : List (String × ℚ × ℚ),
    aggSV (fs.foldl aggStep a) = aggSV a + ((okRows fs).map (fun r => r.monthlySV)).sum := by
  induction fs with
  | nil => intro a; simp [okRows]
  | cons f fs ih =>
    intro a
    cases f with
    | ok n d =>
      simp only [List.foldl_cons, aggStep, okRows, List.filterMap_cons]
      rw [ih, aggSV_updAgg]
      simp [okRows, rowOf]
      ring
    | bad n =>
      simp only [List.foldl_cons, aggStep, okRows, List.filterMap_cons]
      rw [ih]
      simp [okRows]

end CtrProcessor

namespace CtrProcessor

/-- The selection of `identify_company` operates on the closed-form pair
counts. -/
lemma identify_company_eq_pairCounts (kws : List (Option String)) :
    identify_company kws =
      if 0 < maxVals (pairCounts kws) then firstMaxKey (pairCounts kws)
      else "Unknown Company" := by
  have h : identify_company kws =
      (if 0 < maxVals (((kws.filterMap id).map pyLower).foldl (genStep company_indicators)
          (company_indicators.map (fun p => (p.1, 0))))
       then firstMaxKey (((kws.filterMap id).map pyLower).foldl (genStep company_indicators)
          (company_indicators.map (fun p => (p.1, 0))))
       else "Unknown Company") := rfl
  rw [h, counts_eq_pairCounts]

end CtrProcessor

/-- Claim C1, counterexample: the claim says `identify_company` counts, per
company, the number of keywords containing at least one of that company's
indicator phrases.  On the keyword list `["jp morgan chase", "wells fargo"]`
each of Chase and Wells Fargo has exactly one such keyword, so the claimed
rule (tie broken by dictionary order) selects Wells Fargo
(`identify_company_spec`); the code counts the keyword `"jp morgan chase"`
twice for Chase (indicators `"chase"` and `"jp morgan chase"` both match) and
returns Chase. -/
theorem C1_counterexample :
    CtrProcessor.identify_company [some "jp morgan chase", some "wells fargo"] = "Chase" ∧
    CtrProcessor.identify_company_spec [some "jp morgan chase", some "wells fargo"]
      = "Wells Fargo" ∧
    ("Chase" : String) ≠ "Wells Fargo" := by decide

/-- Claim C1, amended: `identify_company` computes, per company, the number
of (keyword, indicator) PAIRS with the indicator a substring of the keyword —
a keyword matching several of one company's indicators is counted once per
indicator — and returns the first company (in dictionary iteration order)
attaining the strictly highest pair count, or `"Unknown Company"` when every
pair count is zero. -/
theorem C1_amended_theorem (kws : List (Option String)) :
    CtrProcessor.identify_company kws =
      (if 0 < CtrProcessor.maxVals (CtrProcessor.pairCounts kws)
       then CtrProcessor.firstMaxKey (CtrProcessor.pairCounts kws)
       else "Unknown Company") ∧
    (0 < CtrProcessor.maxVals (CtrProcessor.pairCounts kws) →
      ∃ l₁ n l₂, CtrProcessor.pairCounts kws =
          l₁ ++ (CtrProcessor.identify_company kws, n) :: l₂ ∧
        (∀ q ∈ l₁, q.2 < n) ∧ (∀ q ∈ l₂, q.2 ≤ n)) := by
  refine ⟨CtrProcessor.identify_company_eq_pairCounts kws, fun hpos => ?_⟩
  have hne : CtrProcessor.pairCounts kws ≠ [] := by
    simp [CtrProcessor.pairCounts, CtrProcessor.company_indicators]
  obtain ⟨l₁, n, l₂, heq, hlt, hle⟩ := CtrProcessor.firstMaxKey_decomp _ hne
  refine ⟨l₁, n, l₂, ?_, hlt, hle⟩
  rw [CtrProcessor.identify_company_eq_pairCounts kws, if_pos hpos]
  exact heq

/-- Claim C1, witness for the amended theorem at the counterexample input
(where the maximal pair count is 2, attained first by Chase). -/
theorem C1_amended_witness :
    (CtrProcessor.identify_company [some "jp morgan chase", some "wells fargo"] =
      (if 0 < CtrProcessor.maxVals
            (CtrProcessor.pairCounts [some "jp morgan chase", some "wells fargo"])
       then CtrProcessor.firstMaxKey
            (CtrProcessor.pairCounts [some "jp morgan chase", some "wells fargo"])
       else "Unknown Company")) ∧
    ∃ l₁ n l₂,
      CtrProcessor.pairCounts [some "jp morgan chase", some "wells fargo"] =
        l₁ ++ (CtrProcessor.identify_company [some "jp morgan chase", some "wells fargo"], n)
          :: l₂ ∧
      (∀ q ∈ l₁, q.2 < n) ∧ (∀ q ∈ l₂, q.2 ≤ n) :=
  ⟨(C1_amended_theorem [some "jp morgan chase", some "wells fargo"]).1,
   (C1_amended_theorem [some "jp morgan chase", some "wells fargo"]).2 (by decide)⟩

/-- Claim C7: on a keyword list in which no (lowercased) keyword contains any
indicator phrase of any company, `identify_company` returns the no-match
signal `"Unknown Company"`, which is not a company of the dictionary. -/
theorem C7_no_match (kws : List (Option String))
    (h : ∀ kw ∈ (kws.filterMap id).map pyLower, ∀ p ∈ CtrProcessor.company_indicators,
      ∀ ind ∈ p.2, isSub ind kw = false) :
    CtrProcessor.identify_company kws = "Unknown Company" ∧
    "Unknown Company" ∉ CtrProcessor.company_indicators.map Prod.fst := by
  refine ⟨?_, by decide⟩
  have hz : ∀ q ∈ CtrProcessor.pairCounts kws, q.2 = 0 := by
    intro q hq
    obtain ⟨p, hp, rfl⟩ := List.mem_map.1 hq
    simp only [CtrProcessor.pairCount]
    apply List.sum_eq_zero
    intro x hx
    obtain ⟨kw, hkw, rfl⟩ := List.mem_map.1 hx
    rw [List.countP_eq_zero]
    intro ind hind
    simp [h kw hkw p hp ind hind]
  have hmax : CtrProcessor.maxVals (CtrProcessor.pairCounts kws) = 0 :=
    CtrProcessor.maxVals_zero _ hz
  rw [CtrProcessor.identify_company_eq_pairCounts, hmax]
  simp

/-- Claim C7, witness: the keyword `"Hello World"` contains no indicator
phrase of any company. -/
theorem C7_no_match_witness :
    CtrProcessor.identify_company [some "Hello World"] = "Unknown Company" ∧
    "Unknown Company" ∉ CtrProcessor.company_indicators.map Prod.fst :=
  C7_no_match [some "Hello World"] (by decide)

/-- Claim C2, counterexample: the claim's "otherwise CTR equals total traffic
divided by total search volume" fails on a reachable aggregate with negative
total search volume (spreadsheet cells may be negative; nothing clamps them).
One file with volume column `[-4]` and traffic column `[2]` yields the
summary row `("Unknown Company", -4, 2, 0)`: the code's `> 0` guard gives CTR
`0`, while the claimed quotient is `2 / (-4) ≠ 0`. -/
theorem C2_counterexample :
    (CtrProcessor.process_excel_files
        [FileInput.ok "f.xlsx" ⟨[some "x"], [some (-4)], [some 2]⟩]).map
      (fun r => r.company_summary)
      = some [⟨"Unknown Company", -4, 2, 0⟩] ∧
    ¬ ((0 : ℚ) = 2 / (-4)) := by
  constructor
  · have hid : CtrProcessor.identify_company [some "x"] = "Unknown Company" := by decide
    simp [CtrProcessor.process_excel_files, CtrProcessor.processFile, hid,
      updAgg, sortByKey, insByKey, CtrProcessor.mkSummaryRow, sumCells]
  · norm_num

/-- Claim C2, amended: every company-summary row of the CLI aggregator has
CTR equal to total traffic over total search volume when the total search
volume is strictly positive, and CTR exactly `0` otherwise — in particular a
zero total search volume yields CTR `0` and never a division error (the
guarded branch never divides). -/
theorem C2_amended_theorem (files : List FileInput) (res : CtrProcessor.CResults)
    (h : CtrProcessor.process_excel_files files = some res) :
    ∀ row ∈ res.company_summary,
      row.ctr = (if 0 < row.totalSV then row.totalTR / row.totalSV else 0) ∧
      (row.totalSV = 0 → row.ctr = 0) := by
  intro row hrow
  by_cases hf : files = []
  · rw [hf] at h
    simp [CtrProcessor.process_excel_files] at h
  · simp only [CtrProcessor.process_excel_files, if_neg hf, Option.some.injEq] at h
    rw [← h] at hrow
    obtain ⟨p, _, rfl⟩ := List.mem_map.1 hrow
    constructor
    · rfl
    · intro h0
      simp only [CtrProcessor.mkSummaryRow] at h0 ⊢
      rw [h0]
      simp

/-- Claim C2, witness: a single file whose search-volume column sums to `0`
(traffic `5`) produces the summary row `("Unknown Company", 0, 5, 0)`. -/
theorem C2_amended_witness :
    (⟨"Unknown Company", 0, 5, 0⟩ : CtrProcessor.SummaryRow).ctr =
      (if 0 < (⟨"Unknown Company", 0, 5, 0⟩ : CtrProcessor.SummaryRow).totalSV
       then (⟨"Unknown Company", 0, 5, 0⟩ : CtrProcessor.SummaryRow).totalTR /
         (⟨"Unknown Company", 0, 5, 0⟩ : CtrProcessor.SummaryRow).totalSV
       else 0) ∧
    ((⟨"Unknown Company", 0, 5, 0⟩ : CtrProcessor.SummaryRow).totalSV = 0 →
      (⟨"Unknown Company", 0, 5, 0⟩ : CtrProcessor.SummaryRow).ctr = 0) :=
  C2_amended_theorem [FileInput.ok "f.xlsx" ⟨[some "x"], [some 0], [some 5]⟩]
    ⟨[⟨"Unknown Company", 0, 5, 0⟩], [⟨"f.xlsx", "Unknown Company", 0, 5⟩], []⟩
    (by
      have hid : CtrProcessor.identify_company [some "x"] = "Unknown Company" := by decide
      simp [CtrProcessor.process_excel_files, CtrProcessor.processFile, hid,
        updAgg, sortByKey, insByKey, CtrProcessor.mkSummaryRow, sumCells])
    ⟨"Unknown Company", 0, 5, 0⟩ (by simp)

/-- Claim C3, counterexample: in the streamlit variant the stored integers
are truncated per file (`int(monthly_traffic)`) but per company in the
summary (`int(total_traffic)`), so conservation fails for a successfully
processed batch.  Two files for the same company, each with traffic column
`[1/2]`: both monthly records store `int(0.5) = 0` (sum `0`), while the
company total is `1.0`, stored as `1`. -/
theorem C3_counterexample :
    (StreamlitApp.process_excel_files
        [FileInput.ok "a.xlsx" ⟨[some "Acme"], [some 1], [some (1/2)]⟩,
         FileInput.ok "b.xlsx" ⟨[some "Acme"], [some 1], [some (1/2)]⟩]
        "key" (fun _ => Except.ok "Acme") StreamlitApp.defaultCompanies).map
      (fun r => ((r.company_summary.map (fun row => row.totalTR)).sum,
                 (r.monthly_data.map (fun row => row.monthlyTR)).sum))
      = some ((1 : Int), (0 : Int)) ∧
    (1 : Int) ≠ 0 := by
  constructor
  · have h1 : StreamlitApp.identify_company [some "Acme"] "key" (Except.ok "Acme")
        StreamlitApp.defaultCompanies =
        (some "Acme", StreamlitApp.defaultCompanies ++ [("Acme", ["acme"])]) := by decide
    have h2 : StreamlitApp.identify_company [some "Acme"] "key" (Except.ok "Acme")
        (StreamlitApp.defaultCompanies ++ [("Acme", ["acme"])]) =
        (some "Acme", StreamlitApp.defaultCompanies ++ [("Acme", ["acme"])]) := by decide
    have h3 : StreamlitApp.containsKey
        (StreamlitApp.defaultCompanies ++ [("Acme", ["acme"])]) "Acme" = true := by decide
    simp [StreamlitApp.process_excel_files, StreamlitApp.s_processFile, h1, h2, h3,
      updAgg, sortByKey, insByKey, StreamlitApp.mkSSummaryRow, StreamlitApp.storeInt,
      sumCells]
    constructor
    · rw [StreamlitApp.truncQ, if_pos (by norm_num)]
      norm_num
    · rw [StreamlitApp.truncQ, if_pos (by norm_num)]
      norm_num
  · decide

/-- Claim C3, amended: conservation holds exactly in the CLI variant — for
every successfully processed batch, the sum of "Total Traffic" over all
company-summary rows equals the sum of "Monthly Traffic" over all monthly
records, and likewise for search volume.  (In the streamlit variant it holds
for the untruncated rational aggregates but not for the stored integers; see
the counterexample.) -/
theorem C3_amended_theorem (files : List FileInput) (res : CtrProcessor.CResults)
    (h : CtrProcessor.process_excel_files files = some res) :
    (res.company_summary.map (fun row => row.totalTR)).sum
        = (res.monthly_data.map (fun row => row.monthlyTR)).sum ∧
    (res.company_summary.map (fun row => row.totalSV)).sum
        = (res.monthly_data.map (fun row => row.monthlySV)).sum := by
  by_cases hf : files = []
  · rw [hf] at h
    simp [CtrProcessor.process_excel_files] at h
  · simp only [CtrProcessor.process_excel_files, if_neg hf, Option.some.injEq] at h
    rw [CtrProcessor.fold_decomp] at h
    subst h
    constructor
    · calc (((sortByKey strLE (files.foldl CtrProcessor.aggStep [])).map
            CtrProcessor.mkSummaryRow).map (fun row => row.totalTR)).sum
          = aggTR (sortByKey strLE (files.foldl CtrProcessor.aggStep [])) := by
            rw [List.map_map]; rfl
        _ = aggTR (files.foldl CtrProcessor.aggStep []) :=
            map_sum_sortByKey strLE (fun p => p.2.2) _
        _ = ((CtrProcessor.okRows files).map (fun r => r.monthlyTR)).sum := by
            rw [CtrProcessor.aggTR_fold]
            simp [aggTR]
    · calc (((sortByKey strLE (files.foldl CtrProcessor.aggStep [])).map
            CtrProcessor.mkSummaryRow).map (fun row => row.totalSV)).sum
          = aggSV (sortByKey strLE (files.foldl CtrProcessor.aggStep [])) := by
            rw [List.map_map]; rfl
        _ = aggSV (files.foldl CtrProcessor.aggStep []) :=
            map_sum_sortByKey strLE (fun p => p.2.1) _
        _ = ((CtrProcessor.okRows files).map (fun r => r.monthlySV)).sum := by
            rw [CtrProcessor.aggSV_fold]
            simp [aggSV]

/-- Claim C3, witness for the amended theorem: a one-file batch (volume sum
`150` with a non-numeric cell, traffic sum `15`) conserves both totals. -/
theorem C3_amended_witness :
    (([⟨"Chase", 150, 15, 15/150⟩] : List CtrProcessor.SummaryRow).map
        (fun row => row.totalTR)).sum
      = (([⟨"a.xlsx", "Chase", 150, 15⟩] : List CtrProcessor.MonthlyRow).map
        (fun row => row.monthlyTR)).sum ∧
    (([⟨"Chase", 150, 15, 15/150⟩] : List CtrProcessor.SummaryRow).map
        (fun row => row.totalSV)).sum
      = (([⟨"a.xlsx", "Chase", 150, 15⟩] : List CtrProcessor.MonthlyRow).map
        (fun row => row.monthlySV)).sum :=
  C3_amended_theorem
    [FileInput.ok "a.xlsx" ⟨[some "chase"], [some 100, none, some 50], [some 10, some 5, none]⟩]
    ⟨[⟨"Chase", 150, 15, 15/150⟩], [⟨"a.xlsx", "Chase", 150, 15⟩], []⟩
    (by
      have hid : CtrProcessor.identify_company [some "chase"] = "Chase" := by decide
      simp [CtrProcessor.process_excel_files, CtrProcessor.processFile, hid,
        updAgg, sortByKey, insByKey, CtrProcessor.mkSummaryRow, sumCells]
      norm_num)

namespace StreamlitApp

/-- The upload loop factors into the error-free core and the write-only error
list: the errors reported are exactly the bad files' names, and nothing else
depends on them. -/
lemma s_fold_eq (api_key : String) (ai : List (Option String) → AIOutcome)
    (fs : List FileInput) : ∀ st : SState,
    fs.foldl (s_processFile api_key ai) st =
      ⟨(fs.foldl (s_core_step api_key ai) (st.rows, st.aggs, st.newly, st.cfg)).1,
       (fs.foldl (s_core_step api_key ai) (st.rows, st.aggs, st.newly, st.cfg)).2.1,
       (fs.foldl (s_core_step api_key ai) (st.rows, st.aggs, st.newly, st.cfg)).2.2.1,
       st.errs ++ badNames fs,
       (fs.foldl (s_core_step api_key ai) (st.rows, st.aggs, st.newly, st.cfg)).2.2.2⟩ := by
  induction fs with
  | nil =>
    intro st
    cases st
    simp [badNames]
  | cons f fs ih =>
    intro st
    cases f with
    | bad n =>
      rw [List.foldl_cons, List.foldl_cons]
      rw [ih]
      simp [s_processFile, s_core_step, badNames]
    | ok n d =>
      rw [List.foldl_cons, List.foldl_cons]
      rw [ih]
      simp [s_processFile, s_core_step, badNames]

end StreamlitApp

/-- Claim C8: inserting a failing file into a batch changes nothing but the
reported errors, in both variants.  CLI: the company summary and the monthly
records equal those of the batch without the bad file, and the reported
errors are exactly the bad files' names in order.  Streamlit: the loop state
(records, aggregates, newly-detected list, learned dictionary) after the
batch equals that of the batch without the bad file, with only the bad file's
name added to the reported errors. -/
theorem C8_skip_bad_file (pre post : List FileInput) (n : String) :
    (pre ++ post ≠ [] →
      ((CtrProcessor.process_excel_files (pre ++ FileInput.bad n :: post)).map
          (fun r => r.company_summary)
        = (CtrProcessor.process_excel_files (pre ++ post)).map
          (fun r => r.company_summary)) ∧
      ((CtrProcessor.process_excel_files (pre ++ FileInput.bad n :: post)).map
          (fun r => r.monthly_data)
        = (CtrProcessor.process_excel_files (pre ++ post)).map
          (fun r => r.monthly_data)) ∧
      ((CtrProcessor.process_excel_files (pre ++ FileInput.bad n :: post)).map
          (fun r => r.errors)
        = some (badNames pre ++ n :: badNames post))) ∧
    (∀ (api_key : String) (ai : List (Option String) → StreamlitApp.AIOutcome)
        (st : StreamlitApp.SState),
      (pre ++ FileInput.bad n :: post).foldl (StreamlitApp.s_processFile api_key ai) st =
        { (pre ++ post).foldl (StreamlitApp.s_processFile api_key ai) st with
            errs := st.errs ++ (badNames pre ++ n :: badNames post) }) := by
  constructor
  · intro hne
    have hne' : pre ++ FileInput.bad n :: post ≠ [] := by simp
    have hrows : CtrProcessor.okRows (pre ++ FileInput.bad n :: post)
        = CtrProcessor.okRows (pre ++ post) := by
      simp [CtrProcessor.okRows]
    have haggs : (pre ++ FileInput.bad n :: post).foldl CtrProcessor.aggStep []
        = (pre ++ post).foldl CtrProcessor.aggStep [] := by
      rw [List.foldl_append, List.foldl_cons, List.foldl_append]
      rfl
    have hbad : badNames (pre ++ FileInput.bad n :: post)
        = badNames pre ++ n :: badNames post := by
      simp [badNames]
    simp only [CtrProcessor.process_excel_files, if_neg hne', if_neg hne,
      CtrProcessor.fold_decomp, Option.map_some]
    simp [hrows, haggs, hbad]
  · intro api_key ai st
    have hcore : ∀ q, (pre ++ FileInput.bad n :: post).foldl
          (StreamlitApp.s_core_step api_key ai) q
        = (pre ++ post).foldl (StreamlitApp.s_core_step api_key ai) q := by
      intro q
      rw [List.foldl_append, List.foldl_cons, List.foldl_append]
      rfl
    rw [StreamlitApp.s_fold_eq, StreamlitApp.s_fold_eq, hcore]
    simp [badNames]

/-- Claim C8, witness: a bad file in front of one good (empty-columned) file
is skipped, the good file still processed, and the error reported. -/
theorem C8_skip_bad_file_witness :
    (((CtrProcessor.process_excel_files
          ([] ++ FileInput.bad "bad.xlsx" :: [FileInput.ok "g.xlsx" ⟨[], [], []⟩])).map
        (fun r => r.company_summary)
      = (CtrProcessor.process_excel_files ([] ++ [FileInput.ok "g.xlsx" ⟨[], [], []⟩])).map
        (fun r => r.company_summary)) ∧
    ((CtrProcessor.process_excel_files
          ([] ++ FileInput.bad "bad.xlsx" :: [FileInput.ok "g.xlsx" ⟨[], [], []⟩])).map
        (fun r => r.monthly_data)
      = (CtrProcessor.process_excel_files ([] ++ [FileInput.ok "g.xlsx" ⟨[], [], []⟩])).map
        (fun r => r.monthly_data)) ∧
    ((CtrProcessor.process_excel_files
          ([] ++ FileInput.bad "bad.xlsx" :: [FileInput.ok "g.xlsx" ⟨[], [], []⟩])).map
        (fun r => r.errors)
      = some (badNames [] ++ "bad.xlsx" :: badNames [FileInput.ok "g.xlsx" ⟨[], [], []⟩]))) ∧
    (([] ++ FileInput.bad "bad.xlsx" :: [FileInput.ok "g.xlsx" ⟨[], [], []⟩]).foldl
        (StreamlitApp.s_processFile "k" (fun _ => Except.error ())) ⟨[], [], [], [], []⟩ =
      { ([] ++ [FileInput.ok "g.xlsx" ⟨[], [], []⟩]).foldl
          (StreamlitApp.s_processFile "k" (fun _ => Except.error ())) ⟨[], [], [], [], []⟩ with
          errs := ([] : List String) ++
            (badNames [] ++ "bad.xlsx" :: badNames [FileInput.ok "g.xlsx" ⟨[], [], []⟩]) }) :=
  ⟨(C8_skip_bad_file [] [FileInput.ok "g.xlsx" ⟨[], [], []⟩] "bad.xlsx").1 (by simp),
   (C8_skip_bad_file [] [FileInput.ok "g.xlsx" ⟨[], [], []⟩] "bad.xlsx").2 "k"
     (fun _ => Except.error ()) ⟨[], [], [], [], []⟩⟩

namespace StreamlitApp

lemma mem_insDesc (x y : String × Nat) (l : List (String × Nat)) :
    x ∈ insDesc y l → x = y ∨ x ∈ l := by
  induction l with
  | nil => simp [insDesc]
  | cons z zs ih =>
    by_cases h : y.2 ≤ z.2
    · simp only [insDesc, if_pos h, List.mem_cons]
      intro hx
      rcases hx with hx | hx
      · exact Or.inr (Or.inl hx)
      · rcases ih hx with hx | hx
        · exact Or.inl hx
        · exact Or.inr (Or.inr hx)
    · simp only [insDesc, if_neg h, List.mem_cons]
      intro hx
      rcases hx with hx | hx | hx
      · exact Or.inl hx
      · exact Or.inr (Or.inl hx)
      · exact Or.inr (Or.inr hx)

lemma mem_sortDesc_aux (l : List (String × Nat)) :
    ∀ (acc : List (String × Nat)) (x : String × Nat),
      x ∈ l.foldl (fun a z => insDesc z a) acc → x ∈ acc ∨ x ∈ l := by
  induction l with
  | nil => intro acc x hx; exact Or.inl hx
  | cons z zs ih =>
    intro acc x hx
    rcases ih (insDesc z acc) x hx with hx | hx
    · rcases mem_insDesc x z acc hx with hx | hx
      · exact Or.inr (by simp [hx])
      · exact Or.inl hx
    · exact Or.inr (by simp [hx])

lemma mem_sortDesc (l : List (String × Nat)) (x : String × Nat) :
    x ∈ sortDesc l → x ∈ l := by
  intro hx
  rcases mem_sortDesc_aux l [] x hx with hx | hx
  · simp at hx
  · exact hx

lemma mem_dedupFirstAux (x : String) :
    ∀ (l seen : List String), x ∈ dedupFirstAux l seen → x ∈ l := by
  intro l
  induction l with
  | nil => intro seen hx; simp [dedupFirstAux] at hx
  | cons y ys ih =>
    intro seen hx
    by_cases h : y ∈ seen
    · simp only [dedupFirstAux, if_pos h] at hx
      exact List.mem_cons_of_mem _ (ih seen hx)
    · simp only [dedupFirstAux, if_neg h, List.mem_cons] at hx
      rcases hx with hx | hx
      · simp [hx]
      · exact List.mem_cons_of_mem _ (ih (y :: seen) hx)

lemma mem_mostCommon (k : Nat) (l : List String) (x : String × Nat) :
    x ∈ mostCommon k l → x.1 ∈ l := by
  intro hx
  have h1 : x ∈ sortDesc (counterItems l) := List.mem_of_mem_take hx
  have h2 : x ∈ counterItems l := mem_sortDesc _ _ h1
  obtain ⟨s, hs, rfl⟩ := List.mem_map.1 h2
  exact mem_dedupFirstAux _ _ _ hs

lemma length_mostCommon (k : Nat) (l : List String) : (mostCommon k l).length ≤ k :=
  List.length_take_le _ _

end StreamlitApp

/-- Claim C9: `auto_learn_company` is a no-op returning `False` when the name
is already a key; when the name is new, it returns `False` and leaves the
dictionary untouched exactly when no candidate survives, and otherwise
appends the new entry whose candidate list is nonempty, has at most 10
phrases, and contains only lowercase-normalised input keywords longer than 2
characters. -/
theorem C9_auto_learn (name : String) (kws : List (Option String))
    (cfg : StreamlitApp.Config) :
    (StreamlitApp.containsKey cfg name = true →
      StreamlitApp.auto_learn_company (some name) kws cfg = (false, cfg)) ∧
    (StreamlitApp.containsKey cfg name = false →
      ((StreamlitApp.auto_learn_company (some name) kws cfg).1 = false →
        (StreamlitApp.auto_learn_company (some name) kws cfg).2 = cfg) ∧
      ((StreamlitApp.auto_learn_company (some name) kws cfg).1 = true →
        ∃ cands,
          (StreamlitApp.auto_learn_company (some name) kws cfg).2 = cfg ++ [(name, cands)] ∧
          cands ≠ [] ∧ cands.length ≤ 10 ∧
          ∀ p ∈ cands, 2 < p.length ∧
            p ∈ (kws.filterMap id).map (fun s => pyStrip (pyLower s)))) := by
  have hdef : StreamlitApp.auto_learn_company (some name) kws cfg =
      (if StreamlitApp.containsKey cfg name = true then ((false : Bool), cfg)
       else if ((StreamlitApp.mostCommon 10
              ((kws.filterMap id).map (fun s => pyStrip (pyLower s)))).filter
            (fun p => decide (p.1 ≠ "") && decide (2 < p.1.length))).map Prod.fst = []
         then ((false : Bool), cfg)
         else ((true : Bool), cfg ++ [(name,
            ((StreamlitApp.mostCommon 10
                ((kws.filterMap id).map (fun s => pyStrip (pyLower s)))).filter
              (fun p => decide (p.1 ≠ "") && decide (2 < p.1.length))).map Prod.fst)])) := rfl
  constructor
  · intro h
    rw [hdef, if_pos h]
  · intro h
    rw [hdef, if_neg (by simp [h])]
    by_cases hL : ((StreamlitApp.mostCommon 10
          ((kws.filterMap id).map (fun s => pyStrip (pyLower s)))).filter
        (fun p => decide (p.1 ≠ "") && decide (2 < p.1.length))).map Prod.fst = []
    · rw [if_pos hL]
      exact ⟨fun _ => rfl, fun ht => absurd ht (by simp)⟩
    · rw [if_neg hL]
      refine ⟨fun hf => absurd hf (by simp), fun _ => ⟨_, rfl, hL, ?_, ?_⟩⟩
      · calc (((StreamlitApp.mostCommon 10
              ((kws.filterMap id).map (fun s => pyStrip (pyLower s)))).filter
            (fun p => decide (p.1 ≠ "") && decide (2 < p.1.length))).map Prod.fst).length
            = ((StreamlitApp.mostCommon 10
                ((kws.filterMap id).map (fun s => pyStrip (pyLower s)))).filter
              (fun p => decide (p.1 ≠ "") && decide (2 < p.1.length))).length :=
              List.length_map _ _
          _ ≤ (StreamlitApp.mostCommon 10
              ((kws.filterMap id).map (fun s => pyStrip (pyLower s)))).length :=
              List.length_filter_le _ _
          _ ≤ 10 := StreamlitApp.length_mostCommon _ _
      · intro p hp
        obtain ⟨q, hq, rfl⟩ := List.mem_map.1 hp
        have hmem := List.mem_filter.1 hq
        have hlen : 2 < q.1.length := by
          have := hmem.2
          simp only [Bool.and_eq_true, decide_eq_true_eq] at this
          exact this.2
        exact ⟨hlen, StreamlitApp.mem_mostCommon _ _ _ hmem.1⟩

/-- Claim C9, witness: learning `"Acme Corp"` on the empty dictionary from
the spec's example keywords inserts the frequency-derived candidates. -/
theorem C9_auto_learn_witness :
    ∃ cands,
      (StreamlitApp.auto_learn_company (some "Acme Corp")
          [some "Acme Corp", some "acme corp", some "acme", some "support"] []).2
        = [] ++ [("Acme Corp", cands)] ∧
      cands ≠ [] ∧ cands.length ≤ 10 ∧
      ∀ p ∈ cands, 2 < p.length ∧
        p ∈ ([some "Acme Corp", some "acme corp", some "acme", some "support"].filterMap
            id).map (fun s => pyStrip (pyLower s)) :=
  ((C9_auto_learn "Acme Corp" [some "Acme Corp", some "acme corp", some "acme", some "support"]
      []).2 (by decide)).2 (by decide)

/-- Claim C5, counterexample: `load_company_config` catches only
`FileNotFoundError`.  On a present but unparseable config file, `json.load`
raises and the exception propagates instead of the built-in defaults being
returned. -/
theorem C5_counterexample :
    StreamlitApp.load_company_config StreamlitApp.Storage.unreadable = Except.error () ∧
    StreamlitApp.load_company_config StreamlitApp.Storage.unreadable
      ≠ Except.ok StreamlitApp.defaultCompanies :=
  ⟨rfl, by simp [StreamlitApp.load_company_config]⟩

/-- Claim C5, amended: `load` returns the built-in default dictionary of the
six well-known companies only when the config file is ABSENT; a present but
unparseable file raises (the parse error propagates), and a parsed file
yields its `companies` mapping (the empty dictionary when the key is
missing). -/
theorem C5_amended_theorem :
    StreamlitApp.load_company_config StreamlitApp.Storage.absent
      = Except.ok StreamlitApp.defaultCompanies ∧
    StreamlitApp.load_company_config StreamlitApp.Storage.unreadable = Except.error () ∧
    StreamlitApp.load_company_config (StreamlitApp.Storage.content none) = Except.ok [] ∧
    ∀ c : StreamlitApp.Config,
      StreamlitApp.load_company_config (StreamlitApp.Storage.content (some c)) = Except.ok c :=
  ⟨rfl, rfl, rfl, fun _ => rfl⟩

/-- Claim C6, counterexample: when the remote call raises and the fallback
extractor finds no capitalised keyword, the classification consumed by the
aggregator is Python `None` (here `none`) — not a company-name string and not
the `"Unknown Company"` sentinel: the monthly record of the processed file
carries company `None`. -/
theorem C6_counterexample :
    (StreamlitApp.process_excel_files
        [FileInput.ok "f.xlsx" ⟨[some "chase card"], [some 1], [some 1]⟩]
        "k" (fun _ => Except.error ()) StreamlitApp.defaultCompanies).map
      (fun r => r.monthly_data.map (fun row => row.company)) = some [none] ∧
    (none : Option String) ≠ some "Unknown Company" := by
  constructor
  · have hid : StreamlitApp.identify_company [some "chase card"] "k" (Except.error ())
        StreamlitApp.defaultCompanies
        = (none, StreamlitApp.defaultCompanies ++ [("null", ["chase card"])]) := by decide
    simp [StreamlitApp.process_excel_files, StreamlitApp.s_processFile, hid,
      updAgg, sortByKey, insByKey, StreamlitApp.mkSSummaryRow, StreamlitApp.storeInt,
      sumCells]
  · decide

/-- Claim C6, amended: when the prompt material is nonempty and the
credential is missing or the remote call raises, the AI classifier returns
exactly the Fallback Extractor's result — which may be Python `None`; indeed
the classifier returns `None` only when the fallback extractor does.  (The
result consumed by the aggregator is therefore a company string, the
`"Unknown Company"` sentinel, or `None` — not always one of the first two as
the claim states.) -/
theorem C6_amended_theorem (kws : List (Option String)) (api_key : String)
    (ai : StreamlitApp.AIOutcome) :
    (pyStrip (StreamlitApp.keywordsStr kws) ≠ "" →
      (api_key = "" ∨ ai = Except.error ()) →
      StreamlitApp.identify_company_with_ai kws api_key ai
        = StreamlitApp.extract_company_name_from_keywords kws) ∧
    (StreamlitApp.identify_company_with_ai kws api_key ai = none →
      StreamlitApp.extract_company_name_from_keywords kws = none) := by
  by_cases h0 : pyStrip (StreamlitApp.keywordsStr kws) = ""
  · constructor
    · intro hne
      exact absurd h0 hne
    · intro habs
      rw [StreamlitApp.identify_company_with_ai.eq_def, if_pos h0] at habs
      exact absurd habs (by simp)
  · by_cases hk : api_key = ""
    · have hv : StreamlitApp.identify_company_with_ai kws api_key ai
          = StreamlitApp.extract_company_name_from_keywords kws := by
        rw [StreamlitApp.identify_company_with_ai.eq_def, if_neg h0, if_pos hk]
      exact ⟨fun _ _ => hv, fun h => hv ▸ h⟩
    · cases ai with
      | error e =>
        have hv : StreamlitApp.identify_company_with_ai kws api_key (Except.error e)
            = StreamlitApp.extract_company_name_from_keywords kws := by
          rw [StreamlitApp.identify_company_with_ai.eq_def, if_neg h0, if_neg hk]
        exact ⟨fun _ _ => hv, fun h => hv ▸ h⟩
      | ok content =>
        constructor
        · intro _ hor
          rcases hor with hor | hor
          · exact absurd hor hk
          · exact absurd hor (by simp)
        · intro h
          rw [StreamlitApp.identify_company_with_ai.eq_def, if_neg h0, if_neg hk] at h
          have h' : (if pyStrip content ≠ "" ∧ pyStrip content ≠ "Unknown Company"
              then some (pyStrip content) else some "Unknown Company")
              = (none : Option String) := h
          by_cases hc : pyStrip content ≠ "" ∧ pyStrip content ≠ "Unknown Company"
          · rw [if_pos hc] at h'
            exact absurd h' (by simp)
          · rw [if_neg hc] at h'
            exact absurd h' (by simp)

/-- Claim C6, witness for the amended theorem: missing credential on the
all-lowercase keyword `"chase card"` — the fallback extractor is invoked and
(having no capitalised candidate) returns `None`, which the classifier passes
through. -/
theorem C6_amended_witness :
    StreamlitApp.identify_company_with_ai [some "chase card"] "" (Except.error ())
      = StreamlitApp.extract_company_name_from_keywords [some "chase card"] ∧
    StreamlitApp.extract_company_name_from_keywords [some "chase card"] = none :=
  ⟨(C6_amended_theorem [some "chase card"] "" (Except.error ())).1 (by decide)
      (Or.inl rfl),
   (C6_amended_theorem [some "chase card"] "" (Except.error ())).2 (by decide)⟩

/-- Claim C4 (code bug): a file resolving to the new company `"Acme Corp"`
(absent from the persisted dictionary at resolution time, not the sentinel)
does trigger the learn operation — the final dictionary contains the company —
but the returned `newly_detected` list is EMPTY: the membership check at
lines 176-177 of `streamlit_app.py` runs after `identify_company` has already
learned the company into the (cache-cleared) config, so successfully learned
companies are never reported. -/
theorem C4_newly_detected_bug :
    (StreamlitApp.process_excel_files
        [FileInput.ok "f.xlsx" ⟨[some "Acme Corp"], [some 1], [some 1]⟩]
        "k" (fun _ => Except.ok "Acme Corp") StreamlitApp.defaultCompanies).map
      (fun r => (r.newly_detected, StreamlitApp.containsKey r.finalConfig "Acme Corp"))
      = some ([], true) := by
  have hid : StreamlitApp.identify_company [some "Acme Corp"] "k" (Except.ok "Acme Corp")
      StreamlitApp.defaultCompanies
      = (some "Acme Corp", StreamlitApp.defaultCompanies ++ [("Acme Corp", ["acme corp"])]) := by
    decide
  have hck : StreamlitApp.containsKey
      (StreamlitApp.defaultCompanies ++ [("Acme Corp", ["acme corp"])]) "Acme Corp" = true := by
    decide
  simp [StreamlitApp.process_excel_files, StreamlitApp.s_processFile, hid, hck,
    updAgg, sortByKey, insByKey, StreamlitApp.mkSSummaryRow, StreamlitApp.storeInt,
    sumCells]

/-- Claim C10: in the streamlit variant the stored monthly figures are the
column sums truncated toward zero by `int()` (a NaN sum would be stored as
`0`), while the company aggregate receives the untruncated sums; a file whose
coerced column sum is fractional (traffic column `[1/2]`) therefore stores a
monthly value (`0`) different from the amount (`1/2`) contributed to its
company's total. -/
theorem C10_truncation :
    StreamlitApp.storeInt none = 0 ∧
    (∀ (api_key : String) (ai : List (Option String) → StreamlitApp.AIOutcome)
        (st : StreamlitApp.SState) (n : String) (d : FileData),
      ((StreamlitApp.s_processFile api_key ai st (FileInput.ok n d)).rows.map
          (fun r => r.monthlyTR)
        = st.rows.map (fun r => r.monthlyTR)
            ++ [StreamlitApp.storeInt (some (sumCells d.trCells))]) ∧
      aggTR (StreamlitApp.s_processFile api_key ai st (FileInput.ok n d)).aggs
        = aggTR st.aggs + sumCells d.trCells ∧
      ((StreamlitApp.s_processFile api_key ai st (FileInput.ok n d)).rows.map
          (fun r => r.monthlySV)
        = st.rows.map (fun r => r.monthlySV)
            ++ [StreamlitApp.storeInt (some (sumCells d.svCells))]) ∧
      aggSV (StreamlitApp.s_processFile api_key ai st (FileInput.ok n d)).aggs
        = aggSV st.aggs + sumCells d.svCells) ∧
    (StreamlitApp.storeInt (some (sumCells [some (1/2)])) = 0 ∧
      sumCells [some (1/2)] = 1/2 ∧
      ((StreamlitApp.storeInt (some (sumCells [some (1/2)])) : ℚ) ≠ sumCells [some (1/2)])) := by
  refine ⟨rfl, ?_, ?_⟩
  · intro api_key ai st n d
    refine ⟨by simp [StreamlitApp.s_processFile], ?_, by simp [StreamlitApp.s_processFile], ?_⟩
    · show aggTR (updAgg st.aggs _ (sumCells d.svCells) (sumCells d.trCells)) = _
      rw [aggTR_updAgg]
    · show aggSV (updAgg st.aggs _ (sumCells d.svCells) (sumCells d.trCells)) = _
      rw [aggSV_updAgg]
  · have hs : sumCells [some (1/2)] = (1/2 : ℚ) := by simp [sumCells]
    have ht : StreamlitApp.storeInt (some (1/2 : ℚ)) = 0 := by
      show StreamlitApp.truncQ (1/2 : ℚ) = 0
      rw [StreamlitApp.truncQ, if_pos (by norm_num)]
      norm_num
    refine ⟨by rw [hs, ht], hs, ?_⟩
    rw [hs, ht]
    norm_num
